import Mathlib

/-!
Shallow embedding of the two programs of this repository,
`rewardbench_lrpo.py` (the inference Runner) and
`scripts/submit_eval_jobs.py` (the sweep Submitter), together with
theorems settling the specification claims about them.

Numeric scores (torch float logits) are modelled as rationals; Python's
fallible `/` and the module-level failure modes (AssertionError,
NameError, ValueError, ZeroDivisionError) are modelled with `Except`.
-/

namespace RewardBench

/-! ### `LlamaForPreferencePrediction.forward` (rewardbench_lrpo.py lines 42-83)

The wrapper configures the classification head with `2 * num_pref_rank`
outputs, runs the underlying sequence classifier once, and splits the
single `2k`-wide logit row into `logits_u` (first `k` entries) and
`logits_v` (remaining `k` entries).  The underlying model is abstracted
as a function from a text to its logit row. -/

/-- `forward` for one text: one shared call of the sequence classifier,
whose output row is split at position `k` into `(logits_u, logits_v)`
(lines 72-74 of `rewardbench_lrpo.py`). -/
def forwardUV (seqCls : String → List ℚ) (k : ℕ) (t : String) : List ℚ × List ℚ :=
  let allLogits := seqCls t
  (allLogits.take k, allLogits.drop k)

/-- Per-example preference score, lines 298-300:
`u_chosen, v_chosen = pipe(text_chosen)`, `u_rejected, v_rejected = pipe(text_rejected)`,
`torch.sum(u_chosen * v_rejected - u_rejected * v_chosen, dim=1)`:
elementwise products and difference over the `k` rank dimensions, then a sum. -/
def preferenceScore (seqCls : String → List ℚ) (k : ℕ) (chosen rejected : String) : ℚ :=
  let uvChosen := forwardUV seqCls k chosen
  let uvRejected := forwardUV seqCls k rejected
  (List.zipWith (fun a b => a - b)
      (List.zipWith (fun a b => a * b) uvChosen.1 uvRejected.2)
      (List.zipWith (fun a b => a * b) uvRejected.1 uvChosen.2)).sum

/-- Lines 310-313: `results.append(1) if logit > 0 else results.append(0)`. -/
def outcomeOf (logit : ℚ) : ℕ :=
  if logit > 0 then 1 else 0

/-- Accumulator of the inference loop: `results` and `scores_margin`
(lines 292-293). -/
structure RunState where
  results : List ℕ
  scoresMargin : List ℚ
  deriving Repr, DecidableEq

/-- One step of the loop body (lines 294-314): score every pair of the
batch, append one binary outcome per logit to `results`, and extend
`scores_margin` with the raw logits. -/
def processBatch (seqCls : String → List ℚ) (k : ℕ) (st : RunState)
    (batch : List (String × String)) : RunState :=
  let logits := batch.map (fun p => preferenceScore seqCls k p.1 p.2)
  { results := st.results ++ logits.map outcomeOf,
    scoresMargin := st.scoresMargin ++ logits }

/-- Fixed-size batching of the torch `DataLoader` (lines 278-283:
`shuffle=False`, `drop_last=False`): consecutive chunks of size `bs` in
dataset order, last chunk possibly shorter.  Structural fuel (the
dataset length) makes the recursion total; the loader requires
`bs ≥ 1`. -/
def toBatchesAux (fuel bs : ℕ) (xs : List (String × String)) :
    List (List (String × String)) :=
  match fuel, xs with
  | 0, _ => []
  | _, [] => []
  | fuel + 1, x :: rest => (x :: rest).take bs :: toBatchesAux fuel bs ((x :: rest).drop bs)

/-- The batches the `DataLoader` yields for one dataset. -/
def toBatches (bs : ℕ) (xs : List (String × String)) : List (List (String × String)) :=
  toBatchesAux xs.length bs xs

/-- The full inference loop (lines 292-314): fold the batch step over all
batches, starting from empty `results` and `scores_margin`. -/
def runInference (seqCls : String → List ℚ) (k bs : ℕ)
    (dataset : List (String × String)) : RunState :=
  (toBatches bs dataset).foldl (processBatch seqCls k) ⟨[], []⟩

/-! ### Score aggregation and persistence (lines 320-373) -/

/-- Python's `/` on numbers: raises `ZeroDivisionError` when the divisor
is zero, otherwise true division. -/
def pyDiv (a b : ℚ) : Except String ℚ :=
  if b = 0 then Except.error "ZeroDivisionError: division by zero"
  else Except.ok (a / b)

/-- Line 320: `accuracy = sum(results) / len(results)` — an unguarded
division. -/
def computeAccuracy (results : List ℕ) : Except String ℚ :=
  pyDiv (results.sum : ℚ) (results.length : ℚ)

/-- The summary object json-dumped at lines 359-373. -/
structure Summary where
  accuracy : ℚ
  numPrompts : ℕ
  model : String
  refModel : Option String
  tokenizer : String
  chatTemplate : Option String
  extraResults : Option (List (String × ℚ))
  sectionResults : Option (List (String × ℚ))
  sectionResultsMean : ℚ
  deriving Repr, DecidableEq

/-- Lines 328-373: build the summary object that is dumped to JSON.
`isCore` is `args.dataset == "allenai/reward-bench"`; `resultsGrouped`
and `resultsSection` are the per-subset and per-section accuracy maps,
which lines 335-344 bind only on the core path — on a non-core run the
name `results_section` is unbound, so reading it at line 370 raises
`NameError`.  Line 370 divides by `len(results_section)` with Python's
fallible `/`. -/
def buildSummary (isCore : Bool) (resultsGrouped resultsSection : List (String × ℚ))
    (accuracy : ℚ) (numPrompts : ℕ) (model : String) (refModel : Option String)
    (tokenizer : String) (chatTemplate : Option String) : Except String Summary :=
  let boundSection : Option (List (String × ℚ)) :=
    if isCore then some resultsSection else none
  match boundSection with
  | none => Except.error "NameError: name 'results_section' is not defined"
  | some rs =>
    (pyDiv ((rs.map Prod.snd).sum) (rs.length : ℚ)).map fun mean =>
      { accuracy := accuracy
        numPrompts := numPrompts
        model := model
        refModel := refModel
        tokenizer := tokenizer
        chatTemplate := chatTemplate
        extraResults := if isCore then some resultsGrouped else none
        sectionResults := if isCore then some rs else none
        sectionResultsMean := mean }

/-- Line 351: `output_path = args.output_dir + args.model + ".json"` —
plain string concatenation, no separator inserted. -/
def outputPath (outputDir model : String) : String :=
  outputDir ++ model ++ ".json"

/-- A file system as a partial map from paths to contents. -/
def FileSystem : Type := String → Option String

/-- Lines 356-357: `if os.path.exists(output_path): os.remove(output_path)`. -/
def removeIfExists (fs : FileSystem) (p : String) : FileSystem :=
  fun q => if q = p then none else fs q

/-- Lines 359-373: `open(output_path, "w")` followed by `json.dump` —
the file at the path now holds exactly the new content. -/
def writeFile (fs : FileSystem) (p content : String) : FileSystem :=
  fun q => if q = p then some content else fs q

/-- Lines 350-373 as one state transformer on the file system: compute
the target path, delete any pre-existing file there, then write the new
summary. -/
def saveSummary (fs : FileSystem) (outputDir model content : String) : FileSystem :=
  writeFile (removeIfExists fs (outputPath outputDir model)) (outputPath outputDir model) content

/-! ### Quantization decision (rewardbench_lrpo.py lines 173-183) -/

/-- `pat` begins the character list `s`. -/
def beginsWith : List Char → List Char → Bool
  | [], _ => true
  | _ :: _, [] => false
  | p :: ps, c :: cs => p = c && beginsWith ps cs

/-- `pat` occurs as a contiguous run inside `s`. -/
def containsSub (pat : List Char) : List Char → Bool
  | [] => pat.isEmpty
  | c :: cs => beginsWith pat (c :: cs) || containsSub pat cs

/-- Python's `pat in s` on strings: substring containment. -/
def strContains (s pat : String) : Bool :=
  containsSub pat.toList s.toList

/-- Lines 173-183: `quantized = config["quantized"]`, then forced to
`False` when the model id contains one of the four llama-3 spellings or
`--not_quantized` was passed. -/
def decideQuantized (configQuantized : Bool) (model : String) (notQuantized : Bool) : Bool :=
  if strContains model "llama-3" || strContains model "Llama3" ||
      strContains model "Llama-3" || strContains model "LLaMA3" || notQuantized then
    false
  else
    configQuantized

end RewardBench

namespace SubmitEvalJobs

/-! ### `scripts/submit_eval_jobs.py`, module-level flow -/

/-- Command-line arguments of the Submitter (lines 26-42) with their
argparse defaults. -/
structure SubmitArgs where
  evalOnPrefSets : Bool := false
  evalOnBon : Bool := false
  image : String := "nathanl/rewardbench_v10"
  cluster : String := "ai2/allennlp-cirrascale"
  uploadToHub : Bool := true
  model : Option String := none
  refFree : Bool := false
  evalDpoOnly : Bool := false
  evalRmOnly : Bool := false
  deriving Repr, DecidableEq

/-- One entry of the sweep configuration mapping (`eval_configs.yaml` /
`eval_bon_configs.yaml`): the keys the loop reads at lines 92 and
122-141. -/
structure ModelConfig where
  dpo : Bool
  tokenizer : String
  batchSize : ℕ
  chatTemplate : Option String
  trustRemoteCode : Bool
  numGpus : Option ℕ := none
  refModel : Option String := none
  deriving Repr, DecidableEq

/-- One generated job document (the fields of the templated copy `d`
that the loop fills in, lines 116-141). -/
structure Job where
  script : String
  experimentGroup : String
  name : String
  argumentString : String
  deriving Repr, DecidableEq

/-- Observable side effects of the module, in program order: opening a
configuration file (lines 49, 61, 64), writing a job document
(line 148-150), and invoking the external submission command
(line 152-153). -/
inductive Event where
  | readConfig (path : String)
  | writeDoc (name : String)
  | submit (name : String)
  deriving Repr, DecidableEq

/-- `"/"` replaced by `"-"` in the experiment name (line 118). -/
def dashOfSlash (s : String) : String :=
  String.mk (s.toList.map fun c => if c = '/' then '-' else c)

/-- Lines 102-141 for one non-skipped model entry: pick the script and
experiment group (best-of-N first, then DPO, then plain reward model),
build the name, and concatenate the argument string flag by flag. -/
def mkJob (args : SubmitArgs) (model : String) (mc : ModelConfig) : Job :=
  let script :=
    if args.evalOnBon then "run_bon.py"
    else if mc.dpo then "run_dpo.py"
    else "run_rm.py"
  let group0 :=
    if args.evalOnBon then "rewardebench-bon"
    else if mc.dpo then "rewardebench-dpo"
    else "rewardebench-seq"
  let group := if args.evalOnPrefSets then group0 ++ "-pref-sets" else group0
  let name := dashOfSlash ("rewardbench_eval_for_" ++ model ++ "_on_" ++ group)
  let a0 := "python scripts/" ++ script ++ " --model " ++ model ++
    " --tokenizer " ++ mc.tokenizer ++ " --batch_size " ++ toString mc.batchSize
  let a1 := match mc.chatTemplate with
    | some ct => a0 ++ " --chat_template " ++ ct
    | none => a0
  let a2 := if mc.trustRemoteCode then a1 ++ " --trust_remote_code" else a1
  let a3 := if !args.uploadToHub then a2 ++ " --do_not_save" else a2
  let a4 := if args.evalOnPrefSets then a3 ++ " --pref_sets" else a3
  let a5 := match mc.refModel with
    | some rm => if !args.refFree then a4 ++ " --ref_model " ++ rm else a4
    | none => a4
  { script := script, experimentGroup := group, name := name, argumentString := a5 }

/-- Lines 94-100: skip the entry when a run-mode filter excludes it
(`eval_dpo_only` checked first, `eval_rm_only` in the `elif`). -/
def jobFor (args : SubmitArgs) (model : String) (mc : ModelConfig) : Option Job :=
  if args.evalDpoOnly then
    if !mc.dpo then none else some (mkJob args model mc)
  else if args.evalRmOnly then
    if mc.dpo then none else some (mkJob args model mc)
  else
    some (mkJob args model mc)

/-- The per-model loop (lines 90-153): for every generated job, a
document write then a submission, in sweep order. -/
def loopEvents (args : SubmitArgs) (configs : List (String × ModelConfig)) : List Event :=
  (configs.filterMap fun p => jobFor args p.1 p.2).flatMap
    fun j => [Event.writeDoc j.name, Event.submit j.name]

/-- The jobs the run generates, in sweep order. -/
def generatedJobs (args : SubmitArgs) (configs : List (String × ModelConfig)) : List Job :=
  configs.filterMap fun p => jobFor args p.1 p.2

/-- The whole module, lines 44-153, as a trace of events plus an
optional fatal error, in program order:
line 45 asserts that at most one of `eval_dpo_only` / `eval_rm_only` is
set; line 49 opens the base template; lines 60-65 open the sweep config;
line 70 asserts that at most one of `eval_on_pref_sets` / `eval_on_bon`
is set; lines 72-73 require `HF_TOKEN` in the environment; lines 84-88
restrict to a named model, raising `ValueError` when it is absent from
the mapping; the loop then writes and submits one document per
non-skipped entry. -/
def submitterRun (args : SubmitArgs) (env : String → Option String)
    (configs : List (String × ModelConfig)) : List Event × Option String :=
  if args.evalDpoOnly && args.evalRmOnly then
    ([], some "AssertionError: Only one of eval_dpo_only and eval_rm_only can be True")
  else
    let ev1 := [Event.readConfig "scripts/configs/beaker_eval.yaml"]
    let ev2 := ev1 ++ [Event.readConfig
      (if args.evalOnBon then "scripts/configs/eval_bon_configs.yaml"
       else "scripts/configs/eval_configs.yaml")]
    if args.evalOnPrefSets && args.evalOnBon then
      (ev2, some "AssertionError: Only one of eval_on_pref_sets and eval_on_bon can be True")
    else
      match env "HF_TOKEN" with
      | none => (ev2, some "AssertionError: HF Token does not exist")
      | some _ =>
        match args.model with
        | some m =>
          if (configs.map Prod.fst).contains m then
            (ev2 ++ loopEvents args (configs.filter fun p => p.1 = m), none)
          else
            (ev2, some ("ValueError: Model " ++ m ++ " not found in configs"))
        | none => (ev2 ++ loopEvents args configs, none)

end SubmitEvalJobs

namespace RewardBench

/-! ### Helper lemmas -/

lemma score_sum_formula (k : ℕ) :
    ∀ uC vR uR vC : List ℚ, uC.length = k → vR.length = k → uR.length = k → vC.length = k →
    (List.zipWith (fun a b => a - b)
        (List.zipWith (fun a b => a * b) uC vR)
        (List.zipWith (fun a b => a * b) uR vC)).sum =
      ∑ i ∈ Finset.range k, (uC.getD i 0 * vR.getD i 0 - uR.getD i 0 * vC.getD i 0) := by
  induction k with
  | zero =>
    intro uC vR uR vC h1 h2 h3 h4
    rw [List.length_eq_zero] at h1 h2 h3 h4
    subst h1; subst h2; subst h3; subst h4
    simp
  | succ n ih =>
    intro uC vR uR vC h1 h2 h3 h4
    cases uC with
    | nil => simp at h1
    | cons a as =>
      cases vR with
      | nil => simp at h2
      | cons b bs =>
        cases uR with
        | nil => simp at h3
        | cons c cs =>
          cases vC with
          | nil => simp at h4
          | cons d ds =>
            simp only [List.length_cons, Nat.succ.injEq] at h1 h2 h3 h4
            rw [Finset.sum_range_succ']
            simp only [List.zipWith_cons_cons, List.sum_cons,
              List.getD_cons_succ, List.getD_cons_zero]
            rw [ih as bs cs ds h1 h2 h3 h4]
            ring

lemma processBatch_results (seqCls : String → List ℚ) (k : ℕ) (st : RunState)
    (batch : List (String × String)) :
    (processBatch seqCls k st batch).results =
      st.results ++ (batch.map fun p => preferenceScore seqCls k p.1 p.2).map outcomeOf :=
  rfl

lemma processBatch_scoresMargin (seqCls : String → List ℚ) (k : ℕ) (st : RunState)
    (batch : List (String × String)) :
    (processBatch seqCls k st batch).scoresMargin =
      st.scoresMargin ++ (batch.map fun p => preferenceScore seqCls k p.1 p.2) :=
  rfl

lemma foldl_results_eq_map (seqCls : String → List ℚ) (k : ℕ)
    (batches : List (List (String × String))) :
    ∀ st : RunState, st.results = st.scoresMargin.map outcomeOf →
      (batches.foldl (processBatch seqCls k) st).results =
        (batches.foldl (processBatch seqCls k) st).scoresMargin.map outcomeOf := by
  induction batches with
  | nil => intro st h; exact h
  | cons b bs ih =>
    intro st h
    apply ih
    rw [processBatch_results, processBatch_scoresMargin, List.map_append, h]

lemma runInference_results_eq_map (seqCls : String → List ℚ) (k bs : ℕ)
    (dataset : List (String × String)) :
    (runInference seqCls k bs dataset).results =
      (runInference seqCls k bs dataset).scoresMargin.map outcomeOf :=
  foldl_results_eq_map seqCls k (toBatches bs dataset) ⟨[], []⟩ rfl

lemma toBatchesAux_sum_lengths (bs : ℕ) (hbs : 0 < bs) :
    ∀ (fuel : ℕ) (xs : List (String × String)), xs.length ≤ fuel →
      ((toBatchesAux fuel bs xs).map List.length).sum = xs.length := by
  intro fuel
  induction fuel with
  | zero =>
    intro xs h
    have hx : xs = [] := List.length_eq_zero.mp (Nat.le_zero.mp h)
    subst hx
    simp [toBatchesAux]
  | succ n ih =>
    intro xs h
    cases xs with
    | nil => simp [toBatchesAux]
    | cons x rest =>
      simp only [toBatchesAux, List.map_cons, List.sum_cons]
      rw [ih ((x :: rest).drop bs)]
      · simp only [List.length_take, List.length_drop, List.length_cons]
        omega
      · simp only [List.length_drop, List.length_cons]
        simp only [List.length_cons] at h
        omega

lemma foldl_results_length (seqCls : String → List ℚ) (k : ℕ)
    (batches : List (List (String × String))) :
    ∀ st : RunState,
      (batches.foldl (processBatch seqCls k) st).results.length =
        st.results.length + (batches.map List.length).sum := by
  induction batches with
  | nil => intro st; simp
  | cons b bs ih =>
    intro st
    rw [List.foldl_cons, ih, processBatch_results]
    simp only [List.length_append, List.length_map, List.map_cons, List.sum_cons]
    omega

lemma foldl_scoresMargin_length (seqCls : String → List ℚ) (k : ℕ)
    (batches : List (List (String × String))) :
    ∀ st : RunState,
      (batches.foldl (processBatch seqCls k) st).scoresMargin.length =
        st.scoresMargin.length + (batches.map List.length).sum := by
  induction batches with
  | nil => intro st; simp
  | cons b bs ih =>
    intro st
    rw [List.foldl_cons, ih, processBatch_scoresMargin]
    simp only [List.length_append, List.length_map, List.map_cons, List.sum_cons]
    omega

lemma runInference_scoresMargin_length (seqCls : String → List ℚ) (k bs : ℕ)
    (dataset : List (String × String)) (hbs : 0 < bs) :
    (runInference seqCls k bs dataset).scoresMargin.length = dataset.length := by
  unfold runInference
  rw [foldl_scoresMargin_length]
  simp only [List.length_nil, Nat.zero_add]
  exact toBatchesAux_sum_lengths bs hbs dataset.length dataset le_rfl

lemma runInference_results_length (seqCls : String → List ℚ) (k bs : ℕ)
    (dataset : List (String × String)) (hbs : 0 < bs) :
    (runInference seqCls k bs dataset).results.length = dataset.length := by
  unfold runInference
  rw [foldl_results_length]
  simp only [List.length_nil, Nat.zero_add]
  exact toBatchesAux_sum_lengths bs hbs dataset.length dataset le_rfl

/-! ### Claim theorems for the Runner -/

/-- C1: for every batch and example, the preference score equals the sum
over the `k` rank dimensions of `u_chosen * v_rejected - u_rejected * v_chosen`,
where `u` is the first `k` and `v` the remaining `k` entries of the
single `2k`-wide classification output of one shared forward pass per
text, chosen and rejected each scored once under the same model. -/
theorem preference_score_formula (seqCls : String → List ℚ) (k : ℕ)
    (hlen : ∀ t, (seqCls t).length = 2 * k) (chosen rejected : String) :
    (forwardUV seqCls k chosen).1 ++ (forwardUV seqCls k chosen).2 = seqCls chosen ∧
    (forwardUV seqCls k rejected).1 ++ (forwardUV seqCls k rejected).2 = seqCls rejected ∧
    ((forwardUV seqCls k chosen).1.length = k ∧ (forwardUV seqCls k chosen).2.length = k ∧
     (forwardUV seqCls k rejected).1.length = k ∧ (forwardUV seqCls k rejected).2.length = k) ∧
    preferenceScore seqCls k chosen rejected =
      ∑ i ∈ Finset.range k,
        ((forwardUV seqCls k chosen).1.getD i 0 * (forwardUV seqCls k rejected).2.getD i 0 -
         (forwardUV seqCls k rejected).1.getD i 0 * (forwardUV seqCls k chosen).2.getD i 0) := by
  have htc : ((seqCls chosen).take k).length = k := by
    rw [List.length_take, hlen chosen]; omega
  have hdc : ((seqCls chosen).drop k).length = k := by
    rw [List.length_drop, hlen chosen]; omega
  have htr : ((seqCls rejected).take k).length = k := by
    rw [List.length_take, hlen rejected]; omega
  have hdr : ((seqCls rejected).drop k).length = k := by
    rw [List.length_drop, hlen rejected]; omega
  refine ⟨List.take_append_drop k (seqCls chosen), List.take_append_drop k (seqCls rejected),
    ⟨htc, hdc, htr, hdr⟩, ?_⟩
  exact score_sum_formula k ((seqCls chosen).take k) ((seqCls rejected).drop k)
    ((seqCls rejected).take k) ((seqCls chosen).drop k) htc hdr htr hdc

/-- C1 witness: the formula instantiated at a concrete model with `k = 1`. -/
theorem preference_score_formula_witness :
    (∀ t, ((fun _ : String => [(1 : ℚ), 2]) t).length = 2 * 1) ∧
    preferenceScore (fun _ : String => [(1 : ℚ), 2]) 1 "a" "b" =
      ∑ i ∈ Finset.range 1,
        ((forwardUV (fun _ : String => [(1 : ℚ), 2]) 1 "a").1.getD i 0 *
            (forwardUV (fun _ : String => [(1 : ℚ), 2]) 1 "b").2.getD i 0 -
         (forwardUV (fun _ : String => [(1 : ℚ), 2]) 1 "b").1.getD i 0 *
            (forwardUV (fun _ : String => [(1 : ℚ), 2]) 1 "a").2.getD i 0) :=
  ⟨fun _ => rfl,
   (preference_score_formula (fun _ : String => [(1 : ℚ), 2]) 1 (fun _ => rfl) "a" "b").2.2.2⟩

/-- C2: the recorded outcome at position `i` is `1` iff the margin at
position `i` is strictly positive; a margin of exactly `0` yields
outcome `0`. -/
theorem outcome_iff_positive_margin (seqCls : String → List ℚ) (k bs : ℕ)
    (dataset : List (String × String)) (i : ℕ)
    (h : i < (runInference seqCls k bs dataset).scoresMargin.length) :
    ((runInference seqCls k bs dataset).results.getD i 0 = 1 ↔
      0 < (runInference seqCls k bs dataset).scoresMargin.getD i 0) ∧
    ((runInference seqCls k bs dataset).scoresMargin.getD i 0 = 0 →
      (runInference seqCls k bs dataset).results.getD i 0 = 0) := by
  have hmap := runInference_results_eq_map seqCls k bs dataset
  have hres : (runInference seqCls k bs dataset).results.getD i 0 =
      outcomeOf ((runInference seqCls k bs dataset).scoresMargin.getD i 0) := by
    rw [hmap]
    rw [List.getD_eq_getElem?_getD, List.getD_eq_getElem?_getD, List.getElem?_map]
    rw [List.getElem?_eq_getElem h]
    simp [outcomeOf]
  rw [hres]
  unfold outcomeOf
  by_cases hp : 0 < (runInference seqCls k bs dataset).scoresMargin.getD i 0
  · rw [if_pos hp]
    exact ⟨⟨fun _ => hp, fun _ => rfl⟩,
      fun h0 => absurd hp (by rw [h0]; exact lt_irrefl 0)⟩
  · rw [if_neg hp]
    exact ⟨⟨fun h1 => absurd h1 (by decide), fun hpos => absurd hpos hp⟩, fun _ => rfl⟩

/-- C2 witness: a one-example run whose margin is exactly `0` records
outcome `0`. -/
theorem outcome_iff_positive_margin_witness :
    0 < (runInference (fun _ : String => [(0 : ℚ), 0]) 1 1 [("a", "b")]).scoresMargin.length ∧
    (((runInference (fun _ : String => [(0 : ℚ), 0]) 1 1 [("a", "b")]).results.getD 0 0 = 1 ↔
        0 < (runInference (fun _ : String => [(0 : ℚ), 0]) 1 1 [("a", "b")]).scoresMargin.getD 0 0) ∧
      ((runInference (fun _ : String => [(0 : ℚ), 0]) 1 1 [("a", "b")]).scoresMargin.getD 0 0 = 0 →
        (runInference (fun _ : String => [(0 : ℚ), 0]) 1 1 [("a", "b")]).results.getD 0 0 = 0)) :=
  ⟨by decide,
   outcome_iff_positive_margin (fun _ : String => [(0 : ℚ), 0]) 1 1 [("a", "b")] 0 (by decide)⟩

/-- C3: after a full run, outcomes, margins and dataset have equal
lengths, and each batch step grows the two lists in lockstep by the
batch size. -/
theorem lengths_equal_after_run (seqCls : String → List ℚ) (k bs : ℕ)
    (dataset : List (String × String)) (hbs : 0 < bs) :
    (runInference seqCls k bs dataset).results.length = dataset.length ∧
    (runInference seqCls k bs dataset).scoresMargin.length = dataset.length ∧
    ∀ (st : RunState) (batch : List (String × String)),
      (processBatch seqCls k st batch).results.length = st.results.length + batch.length ∧
      (processBatch seqCls k st batch).scoresMargin.length = st.scoresMargin.length + batch.length := by
  refine ⟨runInference_results_length seqCls k bs dataset hbs,
    runInference_scoresMargin_length seqCls k bs dataset hbs, ?_⟩
  intro st batch
  constructor
  · rw [processBatch_results]
    simp [List.length_append]
  · rw [processBatch_scoresMargin]
    simp [List.length_append]

/-- C3 witness: a three-example run with batch size `2` yields three
outcomes and three margins. -/
theorem lengths_equal_after_run_witness :
    0 < 2 ∧
    ((runInference (fun _ : String => [(1 : ℚ), 2]) 1 2 [("a", "b"), ("c", "d"), ("e", "f")]).results.length =
        ([("a", "b"), ("c", "d"), ("e", "f")] : List (String × String)).length ∧
      (runInference (fun _ : String => [(1 : ℚ), 2]) 1 2 [("a", "b"), ("c", "d"), ("e", "f")]).scoresMargin.length =
        ([("a", "b"), ("c", "d"), ("e", "f")] : List (String × String)).length ∧
      ∀ (st : RunState) (batch : List (String × String)),
        (processBatch (fun _ : String => [(1 : ℚ), 2]) 1 st batch).results.length =
          st.results.length + batch.length ∧
        (processBatch (fun _ : String => [(1 : ℚ), 2]) 1 st batch).scoresMargin.length =
          st.scoresMargin.length + batch.length) :=
  ⟨by decide,
   lengths_equal_after_run (fun _ : String => [(1 : ℚ), 2]) 1 2
     [("a", "b"), ("c", "d"), ("e", "f")] (by decide)⟩

lemma runInference_results_bounded (seqCls : String → List ℚ) (k bs : ℕ)
    (dataset : List (String × String)) :
    ∀ x ∈ (runInference seqCls k bs dataset).results, x = 0 ∨ x = 1 := by
  rw [runInference_results_eq_map]
  intro x hx
  rcases List.mem_map.mp hx with ⟨m, _, rfl⟩
  unfold outcomeOf
  split
  · right; rfl
  · left; rfl

lemma sum_eq_count_one (l : List ℕ) (h : ∀ x ∈ l, x = 0 ∨ x = 1) :
    l.sum = l.count 1 := by
  induction l with
  | nil => simp
  | cons a as ih =>
    have ha := h a (List.mem_cons_self a as)
    have htail := ih fun x hx => h x (List.mem_cons_of_mem a hx)
    rcases ha with rfl | rfl
    · simp [List.count_cons, htail]
    · have hbeq : ((1 : ℕ) == 1) = true := by decide
      simp only [List.sum_cons, List.count_cons, htail, hbeq, if_true]
      omega

/-- C4 (amended): for every non-empty dataset the accuracy equals the
count of outcomes equal to `1` divided by the number of examples and
lies in `[0, 1]`; on an empty dataset the division is attempted and
fails (lines 320 carries no guard). -/
theorem accuracy_count_over_total (seqCls : String → List ℚ) (k bs : ℕ)
    (dataset : List (String × String)) (hbs : 0 < bs) (hne : dataset ≠ []) :
    computeAccuracy (runInference seqCls k bs dataset).results =
      Except.ok (((runInference seqCls k bs dataset).results.count 1 : ℚ) / (dataset.length : ℚ)) ∧
    ∀ q, computeAccuracy (runInference seqCls k bs dataset).results = Except.ok q →
      0 ≤ q ∧ q ≤ 1 := by
  have hlen := runInference_results_length seqCls k bs dataset hbs
  have hlzero : dataset.length ≠ 0 := fun h0 => hne (List.length_eq_zero.mp h0)
  have hcast : ((dataset.length : ℚ)) ≠ 0 := Nat.cast_ne_zero.mpr hlzero
  have hsum : (runInference seqCls k bs dataset).results.sum =
      (runInference seqCls k bs dataset).results.count 1 :=
    sum_eq_count_one _ (runInference_results_bounded seqCls k bs dataset)
  have hok : computeAccuracy (runInference seqCls k bs dataset).results =
      Except.ok (((runInference seqCls k bs dataset).results.count 1 : ℚ) / (dataset.length : ℚ)) := by
    unfold computeAccuracy pyDiv
    rw [hlen, if_neg hcast, hsum]
  refine ⟨hok, ?_⟩
  intro q hq
  rw [hok] at hq
  have hq' : ((runInference seqCls k bs dataset).results.count 1 : ℚ) / (dataset.length : ℚ) = q :=
    Except.ok.inj hq
  have hpos : (0 : ℚ) < (dataset.length : ℚ) :=
    Nat.cast_pos.mpr (Nat.pos_of_ne_zero hlzero)
  have hcount : (runInference seqCls k bs dataset).results.count 1 ≤ dataset.length := by
    rw [← hlen]
    exact List.count_le_length 1 _
  constructor
  · rw [← hq']
    exact div_nonneg (Nat.cast_nonneg _) (Nat.cast_nonneg _)
  · rw [← hq']
    rw [div_le_one hpos]
    exact_mod_cast hcount

/-- C4 counterexample: on a zero-example dataset the accuracy division
is performed and raises `ZeroDivisionError` — it is not guarded. -/
theorem accuracy_division_fails_on_empty :
    computeAccuracy (runInference (fun _ : String => [(1 : ℚ), 1]) 1 8 []).results =
      Except.error "ZeroDivisionError: division by zero" := by
  rfl

/-- C4 witness: a concrete two-example run where both hypotheses hold. -/
theorem accuracy_count_over_total_witness :
    (0 < 8 ∧ ([("a", "b"), ("c", "d")] : List (String × String)) ≠ []) ∧
    computeAccuracy (runInference (fun _ : String => [(1 : ℚ), 1]) 1 8 [("a", "b"), ("c", "d")]).results =
      Except.ok (((runInference (fun _ : String => [(1 : ℚ), 1]) 1 8 [("a", "b"), ("c", "d")]).results.count 1 : ℚ) /
        ((([("a", "b"), ("c", "d")] : List (String × String)).length : ℚ))) :=
  ⟨⟨by decide, by decide⟩,
   (accuracy_count_over_total (fun _ : String => [(1 : ℚ), 1]) 1 8 [("a", "b"), ("c", "d")]
     (by decide) (by decide)).1⟩

/-- C5: on a non-core dataset run the summary build fails with
`NameError` (the name `results_section` is only bound on the core path,
yet line 370 reads it unconditionally), so no JSON is written; on a core
run `section_results_mean` is the arithmetic mean of the
`section_results` values, here `(1 + 0) / 2 = 1/2`. -/
theorem buildSummary_noncore_nameerror :
    buildSummary false [("subsetA", 1)] [("Chat", 1)] (3/4) 4 "modelX" none "tokX" none =
      Except.error "NameError: name 'results_section' is not defined" ∧
    (buildSummary true [("subsetA", 1)] [("Chat", 1), ("Safety", 0)] (3/4) 4 "modelX" none
        "tokX" none).map Summary.sectionResultsMean = Except.ok (1/2 : ℚ) := by
  refine ⟨rfl, ?_⟩
  norm_num [buildSummary, pyDiv, Except.map]

/-- C6 counterexample: the output path is built by plain string
concatenation, so for an output directory without a trailing slash the
path is not `<output_dir>/<model_id>.json`. -/
theorem outputPath_not_slash_joined :
    outputPath "results" "modelA" ≠ "results" ++ "/" ++ "modelA" ++ ".json" := by
  decide

/-- C6 (amended): the summary is written to
`output_dir ++ model ++ ".json"` (plain concatenation — equal to
`<output_dir>/<model_id>.json` only when the output directory already
ends in a slash, as the default `"results/"` does); any pre-existing
file at that exact path is deleted before the new file is written, the
final content at the path is exactly the new summary, and no other path
is touched. -/
theorem saveSummary_path_and_overwrite (outputDir model content : String) (fs : FileSystem) :
    outputPath outputDir model = outputDir ++ model ++ ".json" ∧
    removeIfExists fs (outputPath outputDir model) (outputPath outputDir model) = none ∧
    saveSummary fs outputDir model content (outputPath outputDir model) = some content ∧
    ∀ q, q ≠ outputPath outputDir model → saveSummary fs outputDir model content q = fs q := by
  refine ⟨rfl, ?_, ?_, ?_⟩
  · unfold removeIfExists
    simp
  · unfold saveSummary writeFile
    simp
  · intro q hq
    unfold saveSummary writeFile removeIfExists
    simp [hq]

/-- C6 witness: overwrite semantics at a concrete file system holding an
old file at the target path. -/
theorem saveSummary_path_and_overwrite_witness :
    "other.txt" ≠ outputPath "results/" "modelA" ∧
    saveSummary (fun p => if p = "results/modelA.json" then some "old" else none)
        "results/" "modelA" "new" "other.txt" =
      (if "other.txt" = "results/modelA.json" then some "old" else none) :=
  ⟨by decide,
   (saveSummary_path_and_overwrite "results/" "modelA" "new"
     (fun p => if p = "results/modelA.json" then some "old" else none)).2.2.2
     "other.txt" (by decide)⟩

/-- C10: quantization is forced off whenever the model id contains one
of the substrings `llama-3`, `Llama3`, `Llama-3`, `LLaMA3` or the
`--not_quantized` flag is passed, regardless of the configuration;
otherwise the configuration's `quantized` value decides. -/
theorem quantization_llama3_override (configQuantized notQuantized : Bool) (model : String) :
    ((strContains model "llama-3" = true ∨ strContains model "Llama3" = true ∨
      strContains model "Llama-3" = true ∨ strContains model "LLaMA3" = true ∨
      notQuantized = true) →
      decideQuantized configQuantized model notQuantized = false) ∧
    (strContains model "llama-3" = false → strContains model "Llama3" = false →
     strContains model "Llama-3" = false → strContains model "LLaMA3" = false →
     notQuantized = false →
      decideQuantized configQuantized model notQuantized = configQuantized) := by
  constructor
  · intro h
    unfold decideQuantized
    rcases h with h | h | h | h | h <;> simp [h]
  · intro h1 h2 h3 h4 h5
    unfold decideQuantized
    simp [h1, h2, h3, h4, h5]

/-- C10 witness: a llama-3 model id is loaded unquantized even with
`quantized` configured, and a non-matching id follows the
configuration. -/
theorem quantization_llama3_override_witness :
    decideQuantized true "meta-llama/Meta-Llama-3-8B" false = false ∧
    decideQuantized true "berkeley-nest/Starling-RM-7B-alpha" false = true :=
  ⟨(quantization_llama3_override true false "meta-llama/Meta-Llama-3-8B").1
     (Or.inr (Or.inr (Or.inl (by decide)))),
   (quantization_llama3_override true false "berkeley-nest/Starling-RM-7B-alpha").2
     (by decide) (by decide) (by decide) (by decide) rfl⟩

end RewardBench

namespace SubmitEvalJobs

/-- C7: the one-entry sweep config for `modelA` (`dpo: false`,
tokenizer `t1`, batch size `4`, no chat template, no remote code) with
no filters generates exactly one job, selecting the plain reward-model
script `run_rm.py`; its argument string contains
`--model modelA --tokenizer t1 --batch_size 4` and contains neither
`--chat_template` nor `--trust_remote_code`; script selection puts
best-of-N before DPO before plain (first match wins). -/
theorem submitter_single_plain_job :
    generatedJobs {} [("modelA",
        { dpo := false, tokenizer := "t1", batchSize := 4,
          chatTemplate := none, trustRemoteCode := false })] =
      [{ script := "run_rm.py", experimentGroup := "rewardebench-seq",
         name := "rewardbench_eval_for_modelA_on_rewardebench-seq",
         argumentString := "python scripts/run_rm.py --model modelA --tokenizer t1 --batch_size 4" }] ∧
    (submitterRun {} (fun key => if key = "HF_TOKEN" then some "token" else none)
        [("modelA",
          { dpo := false, tokenizer := "t1", batchSize := 4,
            chatTemplate := none, trustRemoteCode := false })]).2 = none ∧
    RewardBench.strContains
      "python scripts/run_rm.py --model modelA --tokenizer t1 --batch_size 4"
      "--model modelA --tokenizer t1 --batch_size 4" = true ∧
    RewardBench.strContains
      "python scripts/run_rm.py --model modelA --tokenizer t1 --batch_size 4"
      "--chat_template" = false ∧
    RewardBench.strContains
      "python scripts/run_rm.py --model modelA --tokenizer t1 --batch_size 4"
      "--trust_remote_code" = false ∧
    (mkJob { evalOnBon := true } "m"
      { dpo := true, tokenizer := "t", batchSize := 1,
        chatTemplate := none, trustRemoteCode := false }).script = "run_bon.py" ∧
    (mkJob {} "m"
      { dpo := true, tokenizer := "t", batchSize := 1,
        chatTemplate := none, trustRemoteCode := false }).script = "run_dpo.py" ∧
    (mkJob {} "m"
      { dpo := false, tokenizer := "t", batchSize := 1,
        chatTemplate := none, trustRemoteCode := false }).script = "run_rm.py" := by
  refine ⟨rfl, rfl, ?_, ?_, ?_, rfl, rfl, rfl⟩ <;> decide

/-- C8: when both exclusive filters `eval_dpo_only` and `eval_rm_only`
are set, the Submitter fails by assertion with an empty event trace —
in particular before reading any configuration file. -/
theorem conflicting_filters_fail_before_config (args : SubmitArgs)
    (env : String → Option String) (configs : List (String × ModelConfig))
    (h1 : args.evalDpoOnly = true) (h2 : args.evalRmOnly = true) :
    submitterRun args env configs =
      ([], some "AssertionError: Only one of eval_dpo_only and eval_rm_only can be True") := by
  unfold submitterRun
  rw [h1, h2]
  simp

/-- C8 witness: the conflicting invocation at concrete arguments. -/
theorem conflicting_filters_fail_before_config_witness :
    ({ evalDpoOnly := true, evalRmOnly := true } : SubmitArgs).evalDpoOnly = true ∧
    ({ evalDpoOnly := true, evalRmOnly := true } : SubmitArgs).evalRmOnly = true ∧
    submitterRun { evalDpoOnly := true, evalRmOnly := true } (fun _ => none) [] =
      ([], some "AssertionError: Only one of eval_dpo_only and eval_rm_only can be True") :=
  ⟨rfl, rfl, conflicting_filters_fail_before_config
    { evalDpoOnly := true, evalRmOnly := true } (fun _ => none) [] rfl rfl⟩

/-- C9: when `HF_TOKEN` is absent from the environment the Submitter
fails fatally, and every event of its trace is a configuration read —
no job document is written and no external submission command is
invoked. -/
theorem missing_token_fails_before_any_write (args : SubmitArgs)
    (env : String → Option String) (configs : List (String × ModelConfig))
    (h : env "HF_TOKEN" = none) :
    (submitterRun args env configs).2.isSome = true ∧
    ∀ e ∈ (submitterRun args env configs).1, ∃ p, e = Event.readConfig p := by
  by_cases hd : (args.evalDpoOnly && args.evalRmOnly) = true
  · constructor
    · simp [submitterRun, hd]
    · intro e he
      simp [submitterRun, hd] at he
  · by_cases hp : (args.evalOnPrefSets && args.evalOnBon) = true
    · constructor
      · simp [submitterRun, hd, hp]
      · intro e he
        simp [submitterRun, hd, hp] at he
        rcases he with rfl | rfl
        · exact ⟨_, rfl⟩
        · exact ⟨_, rfl⟩
    · constructor
      · simp [submitterRun, hd, hp, h]
      · intro e he
        simp [submitterRun, hd, hp, h] at he
        rcases he with rfl | rfl
        · exact ⟨_, rfl⟩
        · exact ⟨_, rfl⟩

/-- C9 witness: a default invocation in an empty environment. -/
theorem missing_token_fails_before_any_write_witness :
    ((fun _ : String => (none : Option String)) "HF_TOKEN" = none) ∧
    ((submitterRun {} (fun _ : String => (none : Option String)) []).2.isSome = true ∧
      ∀ e ∈ (submitterRun {} (fun _ : String => (none : Option String)) []).1,
        ∃ p, e = Event.readConfig p) :=
  ⟨rfl, missing_token_fails_before_any_write {} (fun _ : String => (none : Option String)) [] rfl⟩

end SubmitEvalJobs


